import Mathlib

/-! ## Definitions -/

/-!
Verification of the koharu detection-to-inpaint coordination pipeline.

The Rust sources are shallowly embedded below.  `f32` arithmetic is modelled
exactly over `ℚ` (the geometric operations at stake — floor, ceil, clamp,
comparisons and scale factors — are exact); `u32`/`usize` become `ℕ` with
Rust's saturating operations mapped to truncated `ℕ` subtraction, and `i32`
becomes `ℤ`.  Fallible Rust functions returning `anyhow::Result` become
`Except String`; an `Option _` result whose `none` is documented as a panic
models a Rust panic (e.g. out-of-bounds `ndarray` indexing).
-/
/-- Executable floor on `ℚ`: `q.num / q.den` with Euclidean integer division,
matching `Rat.floor_def`.  Models `f32::floor` on exactly represented values. -/
def qfloor (q : ℚ) : ℤ := q.num / q.den

/-- Executable ceiling on `ℚ`, models `f32::ceil`. -/
def qceil (q : ℚ) : ℤ := -qfloor (-q)

/-! ## Detector tensor decode

Embedding of the box-decoding loop of `ComicTextDetector::inference`
(src-tauri/src/comic_text_detector.rs, lines 69-114), which is textually
identical to the loop in comic-text-detector/src/main.rs (lines 65-95).
-/
/-- Bounding box as produced by the decode loop; mirrors
`candle_transformers::object_detection::Bbox` (the unused `data : ()` payload
field is dropped). -/
structure Bbox where
  xmin : ℚ
  ymin : ℚ
  xmax : ℚ
  ymax : ℚ
  confidence : ℚ
  deriving DecidableEq, Repr

/-- Classified output box; mirrors `ClassifiedBbox` of
src-tauri/src/comic_text_detector.rs (`class` is a Lean keyword, so the field
is named `classIndex`). -/
structure ClassifiedBbox where
  xmin : ℚ
  ymin : ℚ
  xmax : ℚ
  ymax : ℚ
  confidence : ℚ
  classIndex : ℕ
  deriving DecidableEq, Repr

/-- Element access `t[[i, j, k]]` on an `ndarray` tensor given as its shape
`dims` plus row-major flat data.  `none` models the Rust panic raised by
`ndarray` when the tensor does not have rank 3 or an index is out of bounds.
(`ort`'s `try_extract_tensor` guarantees `data.length` matches the shape
product, so the `getD` default is never exercised on real tensors.) -/
def tget (dims : List ℕ) (data : List ℚ) (i j k : ℕ) : Option ℚ :=
  match dims with
  | [a, b, c] =>
    if i < a ∧ j < b ∧ k < c then some (data.getD (i * (b * c) + j * c + k) 0)
    else none
  | _ => none

/-- One iteration of the decode loop at row `i`: read the confidence column,
skip the row (inner `none`) when it is below the threshold, otherwise read the
class scores (columns 5 and 6) and the center/size columns, rescale by the
width/height ratios and build the corner box.  The outer `none` models the
panic from an out-of-bounds tensor access; the `Bool` is true when class 1 was
assigned (`blk[[0,i,5]] < blk[[0,i,6]]`). -/
def decodeStep (dims : List ℕ) (data : List ℚ) (wRatio hRatio t : ℚ) (i : ℕ) :
    Option (Option (Bool × Bbox)) :=
  match tget dims data 0 i 4 with
  | none => none
  | some confidence =>
    if confidence < t then some none
    else
      match tget dims data 0 i 5, tget dims data 0 i 6 with
      | some s5, some s6 =>
        match tget dims data 0 i 0, tget dims data 0 i 1,
            tget dims data 0 i 2, tget dims data 0 i 3 with
        | some c0, some c1, some c2, some c3 =>
          let centerX := c0 * wRatio
          let centerY := c1 * hRatio
          let width := c2 * wRatio
          let height := c3 * hRatio
          some (some (decide (s5 < s6),
            { xmin := centerX - width / 2
              ymin := centerY - height / 2
              xmax := centerX + width / 2
              ymax := centerY + height / 2
              confidence := confidence }))
        | _, _, _, _ => none
      | _, _ => none

/-- The decode loop over the listed row indices, carrying the per-class
accumulator `(class-0 boxes, class-1 boxes)`.  `none` models a panic. -/
def decodeGo (dims : List ℕ) (data : List ℚ) (wRatio hRatio t : ℚ) :
    List ℕ → List Bbox × List Bbox → Option (List Bbox × List Bbox)
  | [], acc => some acc
  | i :: rest, acc =>
    match decodeStep dims data wRatio hRatio t i with
    | none => none
    | some none => decodeGo dims data wRatio hRatio t rest acc
    | some (some (isClass1, b)) =>
      decodeGo dims data wRatio hRatio t rest
        (if isClass1 then (acc.1, acc.2 ++ [b]) else (acc.1 ++ [b], acc.2))

/-- Box decoding of the raw `blk` tensor: `for i in 0..blk.shape()[1]`.
`dims[1]?` is `blk.shape()[1]`, whose out-of-bounds access on a tensor of rank
below 2 is a panic (`none`). -/
def decodeBlk (dims : List ℕ) (data : List ℚ) (wRatio hRatio t : ℚ) :
    Option (List Bbox × List Bbox) :=
  match dims[1]? with
  | none => none
  | some n => decodeGo dims data wRatio hRatio t (List.range n) ([], [])

/-! Declarative description of the decode loop on a well-formed `[1, N, 7]`
tensor, used to state the functional-correctness claim. -/
/-- Column `k` of candidate row `i` of a `[1, N, 7]` tensor. -/
def blkRow (data : List ℚ) (i k : ℕ) : ℚ := data.getD (i * 7 + k) 0

/-- Row `i` passes the confidence filter (is not discarded). -/
def blkKeep (data : List ℚ) (t : ℚ) (i : ℕ) : Bool := !decide (blkRow data i 4 < t)

/-- Row `i` is assigned class 1: its class-1 score (column 6) exceeds its
class-0 score (column 5). -/
def blkIsClass1 (data : List ℚ) (i : ℕ) : Bool :=
  decide (blkRow data i 5 < blkRow data i 6)

/-- The corner rectangle decoded from row `i`: center/size rescaled by the
width/height ratios, then converted to `[cx - w/2, cy - h/2, cx + w/2, cy + h/2]`. -/
def blkBox (data : List ℚ) (wRatio hRatio : ℚ) (i : ℕ) : Bbox :=
  { xmin := blkRow data i 0 * wRatio - blkRow data i 2 * wRatio / 2
    ymin := blkRow data i 1 * hRatio - blkRow data i 3 * hRatio / 2
    xmax := blkRow data i 0 * wRatio + blkRow data i 2 * wRatio / 2
    ymax := blkRow data i 1 * hRatio + blkRow data i 3 * hRatio / 2
    confidence := blkRow data i 4 }

/-! ## Non-maximum suppression

Models `candle_transformers::object_detection::non_maximum_suppression` at the
collaborator boundary described in spec section 4.2: per class, sort candidates
by confidence descending (stably), then greedily keep a box unless its
intersection-over-union with an already kept box exceeds the threshold. -/
/-- Intersection over union with candle's +1 pixel convention. -/
def iou (b1 b2 : Bbox) : ℚ :=
  let b1Area := (b1.xmax - b1.xmin + 1) * (b1.ymax - b1.ymin + 1)
  let b2Area := (b2.xmax - b2.xmin + 1) * (b2.ymax - b2.ymin + 1)
  let iXmin := max b1.xmin b2.xmin
  let iXmax := min b1.xmax b2.xmax
  let iYmin := max b1.ymin b2.ymin
  let iYmax := min b1.ymax b2.ymax
  let iArea := max (iXmax - iXmin + 1) 0 * max (iYmax - iYmin + 1) 0
  iArea / (b1Area + b2Area - iArea)

/-- Stable insertion into a confidence-descending list. -/
def insertByConf (b : Bbox) : List Bbox → List Bbox
  | [] => [b]
  | c :: cs => if c.confidence ≤ b.confidence then b :: c :: cs else c :: insertByConf b cs

/-- Stable sort by confidence descending, models Rust's stable
`sort_by(|b1, b2| b2.confidence.partial_cmp(&b1.confidence).unwrap())`. -/
def sortByConfDesc : List Bbox → List Bbox
  | [] => []
  | b :: bs => insertByConf b (sortByConfDesc bs)

/-- Greedy suppression pass: keep `b` unless some already kept box overlaps it
with IoU above the threshold. -/
def nmsGo (t : ℚ) : List Bbox → List Bbox → List Bbox
  | kept, [] => kept
  | kept, b :: rest =>
    if kept.any fun k => decide (t < iou k b) then nmsGo t kept rest
    else nmsGo t (kept ++ [b]) rest

/-- Per-class non-maximum suppression. -/
def nonMaximumSuppression (t : ℚ) (boxes : List Bbox) : List Bbox :=
  nmsGo t [] (sortByConfDesc boxes)

/-- Conversion into the output format with the class index attached
(src-tauri/src/comic_text_detector.rs, lines 102-114). -/
def mkClassified (c : ℕ) (b : Bbox) : ClassifiedBbox :=
  { xmin := b.xmin, ymin := b.ymin, xmax := b.xmax, ymax := b.ymax
    confidence := b.confidence, classIndex := c }

/-- The box-producing part of `ComicTextDetector::inference`: compute the
source/model-space ratios, decode the `blk` tensor, run per-class NMS, and
flatten class 0 then class 1 into the output list.  `none` models a panic
raised while decoding a malformed tensor. -/
def inferenceBoxes (origWidth origHeight : ℕ) (dims : List ℕ) (data : List ℚ)
    (confidenceThreshold nmsThreshold : ℚ) : Option (List ClassifiedBbox) :=
  let wRatio : ℚ := (origWidth : ℚ) / 1024
  let hRatio : ℚ := (origHeight : ℚ) / 1024
  match decodeBlk dims data wRatio hRatio confidenceThreshold with
  | none => none
  | some (class0, class1) =>
    some ((nonMaximumSuppression nmsThreshold class0).map (mkClassified 0) ++
      (nonMaximumSuppression nmsThreshold class1).map (mkClassified 1))

/-! ## Region inpainting pipeline

Embedding of `run_inpainting_pipeline` and its helpers
(src-tauri/src/commands.rs, lines 447-840).  The Tauri `AppHandle`/`AppState`
plumbing, tracing calls, and the debug-artifact file writes are side effects
outside the shallow embedding; the LaMa inference collaborator
(`inference_with_size`) and the `image` crate's smooth `resize_exact` used by
the output reconciler are passed in as opaque function parameters. -/
/-- Mirrors the `BBox` struct of commands.rs: an `f32` rectangle. -/
structure BBox where
  xmin : ℚ
  ymin : ℚ
  xmax : ℚ
  ymax : ℚ
  deriving DecidableEq, Repr

/-- Mirrors `InpaintConfig` of commands.rs. -/
structure InpaintConfig where
  padding : ℤ
  targetSize : ℕ
  maskThreshold : ℕ
  maskErosion : ℕ
  maskDilation : ℕ
  featherRadius : ℕ
  debugMode : Bool
  deriving DecidableEq, Repr

/-- The `Default` impl of `InpaintConfig` (commands.rs lines 433-445). -/
def InpaintConfig.default : InpaintConfig :=
  { padding := 50, targetSize := 512, maskThreshold := 30, maskErosion := 3
    maskDilation := 0, featherRadius := 5, debugMode := false }

/-- Single-channel byte image (`image::GrayImage`): row-major bytes, one per
pixel, modelled as `ℕ` values. -/
structure GrayImage where
  w : ℕ
  h : ℕ
  data : List ℕ
  deriving DecidableEq, Repr

/-- Four-channel byte image (`image::RgbaImage`): row-major, 4 bytes per
pixel. -/
structure RgbaImage where
  w : ℕ
  h : ℕ
  data : List ℕ
  deriving DecidableEq, Repr

/-- Mirrors the `InpaintedRegion` response struct of commands.rs. -/
structure InpaintedRegion where
  image : List ℕ
  x : ℕ
  y : ℕ
  width : ℕ
  height : ℕ
  mask : List ℕ
  maskWidth : ℕ
  maskHeight : ℕ
  paddedBbox : BBox
  deriving DecidableEq, Repr

/-- Padded, floored and clamped minimum x coordinate (commands.rs lines
482-484): `(bbox.xmin - padding).floor().clamp(0.0, (W.saturating_sub 1))`. -/
def paddedMinX (bbox : BBox) (padding : ℤ) (imageWidth : ℕ) : ℤ :=
  min (max (qfloor (bbox.xmin - (padding : ℚ))) 0) ((imageWidth - 1 : ℕ) : ℤ)

/-- Padded minimum y coordinate (commands.rs lines 485-487). -/
def paddedMinY (bbox : BBox) (padding : ℤ) (imageHeight : ℕ) : ℤ :=
  min (max (qfloor (bbox.ymin - (padding : ℚ))) 0) ((imageHeight - 1 : ℕ) : ℤ)

/-- Padded, ceiled and clamped maximum x coordinate (commands.rs lines
488-490): `(bbox.xmax + padding).ceil().clamp(0.0, W)`. -/
def paddedMaxX (bbox : BBox) (padding : ℤ) (imageWidth : ℕ) : ℤ :=
  min (max (qceil (bbox.xmax + (padding : ℚ))) 0) ((imageWidth : ℕ) : ℤ)

/-- Padded maximum y coordinate (commands.rs lines 491-493). -/
def paddedMaxY (bbox : BBox) (padding : ℤ) (imageHeight : ℕ) : ℤ :=
  min (max (qceil (bbox.ymax + (padding : ℚ))) 0) ((imageHeight : ℕ) : ℤ)

/-- Pad-and-clamp stage of the pipeline (commands.rs lines 482-511): compute
the four clamped coordinates, cast to `u32`, and fail when the resulting
rectangle is degenerate (`!(x2 > x && y2 > y)`). -/
def padAndClampChecked (bbox : BBox) (padding : ℤ) (imageWidth imageHeight : ℕ) :
    Except String (ℕ × ℕ × ℕ × ℕ) :=
  let cropX := (paddedMinX bbox padding imageWidth).toNat
  let cropY := (paddedMinY bbox padding imageHeight).toNat
  let cropX2 := (paddedMaxX bbox padding imageWidth).toNat
  let cropY2 := (paddedMaxY bbox padding imageHeight).toNat
  if cropX2 > cropX ∧ cropY2 > cropY then Except.ok (cropX, cropY, cropX2, cropY2)
  else
    Except.error ("Invalid padded bbox after clamping: [" ++ toString cropX ++ ","
      ++ toString cropY ++ " -> " ++ toString cropX2 ++ "," ++ toString cropY2 ++ "]")

/-- Mask-space minimum coordinate (commands.rs lines 546-547):
`(v * scale).floor().max(0.0) as u32`. -/
def maskMin (v : ℚ) (scale : ℚ) : ℕ := (max (qfloor (v * scale)) 0).toNat

/-- Mask-space maximum coordinate (commands.rs lines 548-549):
`(v * scale).ceil().min(maskDim) as u32` (the `as u32` cast saturates at 0). -/
def maskMax (v : ℚ) (scale : ℚ) (maskDim : ℕ) : ℕ :=
  (min (qceil (v * scale)) (maskDim : ℤ)).toNat

/-- Width of the mask-space crop of `bbox` (commands.rs line 551):
`mask_xmax.saturating_sub(mask_xmin)`. -/
def maskCropWidth (fullMask : GrayImage) (bbox : BBox) (origWidth : ℕ) : ℕ :=
  maskMax bbox.xmax ((fullMask.w : ℚ) / (origWidth : ℚ)) fullMask.w -
    maskMin bbox.xmin ((fullMask.w : ℚ) / (origWidth : ℚ))

/-- Height of the mask-space crop of `bbox` (commands.rs line 552). -/
def maskCropHeight (fullMask : GrayImage) (bbox : BBox) (origHeight : ℕ) : ℕ :=
  maskMax bbox.ymax ((fullMask.h : ℚ) / (origHeight : ℚ)) fullMask.h -
    maskMin bbox.ymin ((fullMask.h : ℚ) / (origHeight : ℚ))

/-- Binary dilation with an L-infinity ball of radius `k`; models
`imageproc::morphology::dilate(mask, Norm::LInf, k)`: a pixel becomes 255 when
some pixel with nonzero intensity lies within Chebyshev distance `k`. -/
def dilateMask (mask : GrayImage) (k : ℕ) : GrayImage :=
  { w := mask.w, h := mask.h
    data := (List.range (mask.h * mask.w)).map fun idx =>
      let y := idx / mask.w
      let x := idx % mask.w
      if (List.range (2 * k + 1)).any fun dy =>
          (List.range (2 * k + 1)).any fun dx =>
            decide (k ≤ y + dy) && decide (y + dy < mask.h + k) &&
            decide (k ≤ x + dx) && decide (x + dx < mask.w + k) &&
            decide (mask.data.getD ((y + dy - k) * mask.w + (x + dx - k)) 0 ≠ 0)
      then 255 else 0 }

/-- Inversion pass of `erode_mask` (commands.rs lines 636-644): `255 - p`. -/
def invertMask (mask : GrayImage) : GrayImage :=
  { w := mask.w, h := mask.h, data := mask.data.map fun p => 255 - p }

/-- Erosion implemented as invert, dilate, invert (commands.rs lines 630-647). -/
def erodeMask (mask : GrayImage) (k : ℕ) : GrayImage :=
  invertMask (dilateMask (invertMask mask) k)

/-- Nearest-neighbor resampling to `tw x th`; models
`image::imageops::resize(_, tw, th, FilterType::Nearest)`: the output always
has exactly the requested dimensions, each output pixel sampling the source
pixel nearest to its center. -/
def resizeNearest (img : GrayImage) (tw th : ℕ) : GrayImage :=
  { w := tw, h := th
    data := (List.range (th * tw)).map fun idx =>
      let y := idx / tw
      let x := idx % tw
      let sy := min ((2 * y + 1) * img.h / (2 * th)) (img.h - 1)
      let sx := min ((2 * x + 1) * img.w / (2 * tw)) (img.w - 1)
      img.data.getD (sy * img.w + sx) 0 }

/-- The inner `extract_and_resize_mask` helper (commands.rs lines 532-621):
map the padded bbox into mask space with the floor/ceil asymmetry, fail when
the crop collapses to zero width or height, crop the full mask with saturated
per-pixel sampling, zero bytes below the threshold, optionally dilate, resize
with nearest-neighbor to the crop dimensions, and optionally erode. -/
def extractAndResizeMask (fullMask : GrayImage) (bbox : BBox)
    (origWidth origHeight targetWidth targetHeight : ℕ) (config : InpaintConfig) :
    Except String GrayImage :=
  let maskWidth := fullMask.w
  let maskHeight := fullMask.h
  let scaleX : ℚ := (maskWidth : ℚ) / (origWidth : ℚ)
  let scaleY : ℚ := (maskHeight : ℚ) / (origHeight : ℚ)
  let maskXmin := maskMin bbox.xmin scaleX
  let maskYmin := maskMin bbox.ymin scaleY
  let cropW := maskCropWidth fullMask bbox origWidth
  let cropH := maskCropHeight fullMask bbox origHeight
  if cropW = 0 ∨ cropH = 0 then
    Except.error ("Invalid mask crop dimensions: " ++ toString cropW ++ "x"
      ++ toString cropH)
  else
    let croppedMask : GrayImage :=
      { w := cropW, h := cropH
        data := (List.range (cropH * cropW)).map fun idx =>
          let y := idx / cropW
          let x := idx % cropW
          fullMask.data.getD
            ((min (maskYmin + y) (maskHeight - 1)) * maskWidth +
              min (maskXmin + x) (maskWidth - 1)) 0 }
    let thresholded : GrayImage :=
      { croppedMask with
        data := croppedMask.data.map fun p => if p < config.maskThreshold then 0 else p }
    let morphed :=
      if config.maskDilation > 0 then dilateMask thresholded config.maskDilation
      else thresholded
    let resizedMask := resizeNearest morphed targetWidth targetHeight
    let finalMask :=
      if config.maskErosion > 0 then erodeMask resizedMask config.maskErosion
      else resizedMask
    Except.ok finalMask

/-- `DynamicImage::crop_imm` of the source image to the padded rectangle
(commands.rs line 530); the crop parameters are within bounds by
construction. -/
def cropImage (img : RgbaImage) (cx cy cw ch : ℕ) : RgbaImage :=
  { w := cw, h := ch
    data := (List.range (ch * cw * 4)).map fun idx =>
      let p := idx / 4
      img.data.getD (((cy + p / cw) * img.w + (cx + p % cw)) * 4 + idx % 4) 0 }

/-- Output reconciliation step (commands.rs lines 683-760): if the raw LaMa
output dimensions differ from the crop dimensions, resample (smooth filter,
passed in abstractly as `resampleRgba`, modelling `resize_exact` with
CatmullRom); then force the raw byte buffer to length
`crop_width * crop_height * 4`, zero-padding a shorter buffer and truncating a
longer one.  This step is total: it cannot fail. -/
def reconcileOutput (resampleRgba : RgbaImage → ℕ → ℕ → RgbaImage)
    (inpaintedCrop : RgbaImage) (cropWidth cropHeight : ℕ) : List ℕ :=
  let outputRgba :=
    if inpaintedCrop.w ≠ cropWidth ∨ inpaintedCrop.h ≠ cropHeight
    then resampleRgba inpaintedCrop cropWidth cropHeight
    else inpaintedCrop
  let expected := cropWidth * cropHeight * 4
  if outputRgba.data.length < expected then
    outputRgba.data ++ List.replicate (expected - outputRgba.data.length) 0
  else
    outputRgba.data.take expected

/-- `run_inpainting_pipeline` (commands.rs lines 461-774).  `infer` is the
LaMa collaborator `inference_with_size` behind its mutex (arguments: cropped
image, cropped mask, target size); `resampleRgba` is the smooth resampler used
by the reconciler.  Debug-artifact saving is a file-system side effect outside
the embedding. -/
def runInpaintingPipeline (infer : RgbaImage → GrayImage → ℕ → Except String RgbaImage)
    (resampleRgba : RgbaImage → ℕ → ℕ → RgbaImage)
    (fullImage : RgbaImage) (fullMask : GrayImage)
    (bbox : BBox) (cfg : InpaintConfig) : Except String InpaintedRegion :=
  match padAndClampChecked bbox cfg.padding fullImage.w fullImage.h with
  | Except.error e => Except.error e
  | Except.ok (cropX, cropY, cropX2, cropY2) =>
    let cropWidth := cropX2 - cropX
    let cropHeight := cropY2 - cropY
    let paddedBbox : BBox :=
      { xmin := (cropX : ℚ), ymin := (cropY : ℚ), xmax := (cropX2 : ℚ), ymax := (cropY2 : ℚ) }
    let croppedImage := cropImage fullImage cropX cropY cropWidth cropHeight
    match extractAndResizeMask fullMask paddedBbox fullImage.w fullImage.h
        cropWidth cropHeight cfg with
    | Except.error e => Except.error e
    | Except.ok croppedMask =>
      match infer croppedImage croppedMask cfg.targetSize with
      | Except.error e => Except.error ("Failed to perform inpainting: " ++ e)
      | Except.ok inpaintedCrop =>
        let outputPixels := reconcileOutput resampleRgba inpaintedCrop cropWidth cropHeight
        Except.ok
          { image := outputPixels, x := cropX, y := cropY
            width := cropWidth, height := cropHeight
            mask := croppedMask.data, maskWidth := cropWidth, maskHeight := cropHeight
            paddedBbox := paddedBbox }

/-! ## Region cache (commands.rs lines 776-851) -/
/-- The two cache slots held in `AppState` (`inpaint_image_cache`,
`inpaint_mask_cache`). -/
structure InpaintCache where
  image : Option RgbaImage
  mask : Option GrayImage
  deriving DecidableEq, Repr

/-- `cache_inpainting_data` (commands.rs lines 776-803): decode both PNG
payloads (the `image` crate decoders are passed in abstractly), then store the
decoded pair, replacing any prior entry. -/
def cacheInpaintingData (decodeImage : List ℕ → Except String RgbaImage)
    (decodeMask : List ℕ → Except String GrayImage)
    (_cache : InpaintCache) (imagePng maskPng : List ℕ) : Except String InpaintCache :=
  match decodeImage imagePng with
  | Except.error e => Except.error ("Failed to decode cached inpaint image: " ++ e)
  | Except.ok decodedImage =>
    match decodeMask maskPng with
    | Except.error e => Except.error ("Failed to decode cached inpaint mask: " ++ e)
    | Except.ok decodedMask =>
      Except.ok { image := some decodedImage, mask := some decodedMask }

/-- `clear_inpainting_cache` (commands.rs lines 842-851): empty both slots. -/
def clearInpaintingCache (_cache : InpaintCache) : InpaintCache :=
  { image := none, mask := none }

/-- `inpaint_region_cached` (commands.rs lines 805-840): apply the optional
padding/debug overrides to the (defaulted) config, fail with a cache-miss
error when either slot is empty, otherwise run the pipeline on the cached
pair. -/
def inpaintRegionCached (infer : RgbaImage → GrayImage → ℕ → Except String RgbaImage)
    (resampleRgba : RgbaImage → ℕ → ℕ → RgbaImage) (cache : InpaintCache)
    (bbox : BBox) (padding : Option ℤ) (debugMode : Option Bool)
    (config : Option InpaintConfig) : Except String InpaintedRegion :=
  let cfg0 := config.getD InpaintConfig.default
  let cfg1 := match padding with
    | some p => { cfg0 with padding := p }
    | none => cfg0
  let cfg := match debugMode with
    | some d => { cfg1 with debugMode := d }
    | none => cfg1
  match cache.image with
  | none => Except.error ("No cached image. Call cache_inpainting_data first.")
  | some fullImage =>
    match cache.mask with
    | none => Except.error ("No cached mask. Call cache_inpainting_data first.")
    | some fullMask =>
      runInpaintingPipeline infer resampleRgba fullImage fullMask bbox cfg

/-! Concrete fixture used by the pipeline witnesses: an 8x8 image and mask, a
small interior bbox, and a collaborator whose output has both wrong dimensions
and a wrong byte length, so the witness run exercises the reconciler. -/
def wInfer : RgbaImage → GrayImage → ℕ → Except String RgbaImage :=
  fun _ _ _ => Except.ok { w := 3, h := 2, data := List.replicate 10 7 }

def wResample : RgbaImage → ℕ → ℕ → RgbaImage :=
  fun img tw th => { w := tw, h := th, data := img.data }

def wImage : RgbaImage := { w := 8, h := 8, data := List.replicate 256 5 }

def wMask : GrayImage := { w := 8, h := 8, data := List.replicate 64 200 }

def wBbox : BBox := { xmin := 2, ymin := 2, xmax := 4, ymax := 4 }

def wCfg : InpaintConfig :=
  { padding := 1, targetSize := 64, maskThreshold := 30, maskErosion := 0,
    maskDilation := 0, featherRadius := 5, debugMode := false }

/-- The C1 property at a concrete pipeline result, `False` on an error. -/
def pipelineRunLengthOk (res : Except String InpaintedRegion) : Prop :=
  match res with
  | Except.ok r => r.image.length = r.width * r.height * 4
  | Except.error _ => False

/-- The C10 property at a concrete pipeline result, `False` on an error. -/
def pipelineRunConsistent (res : Except String InpaintedRegion) : Prop :=
  match res with
  | Except.ok r =>
    (r.x : ℚ) = r.paddedBbox.xmin ∧ (r.y : ℚ) = r.paddedBbox.ymin ∧
    (r.width : ℚ) = r.paddedBbox.xmax - r.paddedBbox.xmin ∧
    (r.height : ℚ) = r.paddedBbox.ymax - r.paddedBbox.ymin ∧
    r.maskWidth = r.width ∧ r.maskHeight = r.height ∧
    r.mask.length = r.width * r.height
  | Except.error _ => False

/-- Decidable equality for `Except`, used to evaluate concrete pipeline
results. -/
instance exceptDecEq {e a : Type} [DecidableEq e] [DecidableEq a] :
    DecidableEq (Except e a) := fun x y =>
  match x, y with
  | Except.ok v, Except.ok w =>
    if h : v = w then isTrue (by rw [h]) else isFalse (by simp [h])
  | Except.error v, Except.error w =>
    if h : v = w then isTrue (by rw [h]) else isFalse (by simp [h])
  | Except.ok _, Except.error _ => isFalse (by simp)
  | Except.error _, Except.ok _ => isFalse (by simp)

/-- The padded bbox record the pipeline builds from the clamped `u32`
coordinates. -/
def natBBox (x y x2 y2 : ℕ) : BBox :=
  { xmin := (x : ℚ), ymin := (y : ℚ), xmax := (x2 : ℚ), ymax := (y2 : ℚ) }

def wDegMask : GrayImage := { w := 0, h := 0, data := [] }

def wDegImage : RgbaImage := { w := 4, h := 4, data := List.replicate 64 9 }

def wDegBbox : BBox := { xmin := 1, ymin := 1, xmax := 2, ymax := 2 }

def wBlkData : List ℚ := [0, 0, 0, 0, 0, 0, 0, 4, 6, 2, 2, 1, 3, 5]

def wPosBox : ClassifiedBbox :=
  { xmin := 9, ymin := 9, xmax := 11, ymax := 11, confidence := 1, classIndex := 1 }

/-! ## Theorems -/

theorem qfloor_eq (q : ℚ) : qfloor q = ⌊q⌋ := Rat.floor_def.symm

theorem qceil_eq (q : ℚ) : qceil q = ⌈q⌉ := by
  rw [qceil, qfloor_eq, Int.floor_neg, neg_neg]

/-! Helper lemmas about the decode loop and NMS. -/
theorem tget_blk (n : ℕ) (data : List ℚ) (i j : ℕ) (hi : i < n) (hj : j < 7) :
    tget [1, n, 7] data 0 i j = some (blkRow data i j) := by
  simp [tget, blkRow, hi, hj]

theorem decodeStep_blk (n : ℕ) (data : List ℚ) (wRatio hRatio t : ℚ) (i : ℕ)
    (hi : i < n) :
    decodeStep [1, n, 7] data wRatio hRatio t i =
      some (if blkKeep data t i
        then some (blkIsClass1 data i, blkBox data wRatio hRatio i)
        else none) := by
  rw [decodeStep, tget_blk n data i 4 hi (by omega), tget_blk n data i 5 hi (by omega),
    tget_blk n data i 6 hi (by omega), tget_blk n data i 0 hi (by omega),
    tget_blk n data i 1 hi (by omega), tget_blk n data i 2 hi (by omega),
    tget_blk n data i 3 hi (by omega)]
  by_cases h : blkRow data i 4 < t
  · simp [h, blkKeep]
  · simp [h, blkKeep, blkIsClass1, blkBox]

theorem decodeGo_blk (n : ℕ) (data : List ℚ) (wRatio hRatio t : ℚ)
    (L : List ℕ) (hL : ∀ i ∈ L, i < n) (acc : List Bbox × List Bbox) :
    decodeGo [1, n, 7] data wRatio hRatio t L acc =
      some (acc.1 ++ (L.filter fun i => blkKeep data t i && !blkIsClass1 data i).map
          (blkBox data wRatio hRatio),
        acc.2 ++ (L.filter fun i => blkKeep data t i && blkIsClass1 data i).map
          (blkBox data wRatio hRatio)) := by
  induction L generalizing acc with
  | nil => simp [decodeGo]
  | cons i rest ih =>
    have hi : i < n := hL i (List.mem_cons_self i rest)
    have hrest : ∀ j ∈ rest, j < n := fun j hj => hL j (List.mem_cons_of_mem i hj)
    rw [decodeGo, decodeStep_blk n data wRatio hRatio t i hi]
    by_cases hk : blkKeep data t i
    · by_cases hc : blkIsClass1 data i
      · simp only [hk, hc, if_true, List.filter_cons]
        rw [ih hrest]
        simp
      · simp only [hk, hc, if_true, List.filter_cons]
        rw [ih hrest]
        simp [hc]
    · simp only [hk, if_false, List.filter_cons]
      rw [ih hrest]
      simp [hk]

/-! ## Helper lemmas -/
theorem reconcileOutput_length (resampleRgba : RgbaImage → ℕ → ℕ → RgbaImage)
    (inpaintedCrop : RgbaImage) (cropWidth cropHeight : ℕ) :
    (reconcileOutput resampleRgba inpaintedCrop cropWidth cropHeight).length =
      cropWidth * cropHeight * 4 := by
  simp only [reconcileOutput]
  split <;> split <;>
    simp only [List.length_append, List.length_replicate, List.length_take] <;> omega

theorem dilateMask_w (mask : GrayImage) (k : ℕ) : (dilateMask mask k).w = mask.w := rfl

theorem dilateMask_h (mask : GrayImage) (k : ℕ) : (dilateMask mask k).h = mask.h := rfl

theorem dilateMask_length (mask : GrayImage) (k : ℕ) :
    (dilateMask mask k).data.length = mask.h * mask.w := by
  simp [dilateMask]

theorem invertMask_length (mask : GrayImage) :
    (invertMask mask).data.length = mask.data.length := by
  simp [invertMask]

theorem erodeMask_length (mask : GrayImage) (k : ℕ) :
    (erodeMask mask k).data.length = mask.h * mask.w := by
  simp [erodeMask, invertMask_length, dilateMask_length, invertMask]

theorem resizeNearest_length (img : GrayImage) (tw th : ℕ) :
    (resizeNearest img tw th).data.length = th * tw := by
  simp [resizeNearest]

theorem extractAndResizeMask_ok_length (fullMask : GrayImage) (bbox : BBox)
    (origWidth origHeight targetWidth targetHeight : ℕ) (config : InpaintConfig)
    (m : GrayImage)
    (h : extractAndResizeMask fullMask bbox origWidth origHeight targetWidth
      targetHeight config = Except.ok m) :
    m.data.length = targetHeight * targetWidth := by
  simp only [extractAndResizeMask] at h
  split at h
  · exact absurd h (by simp)
  · rw [Except.ok.injEq] at h
    subst h
    split
    · rw [erodeMask_length]
      simp [resizeNearest]
    · exact resizeNearest_length _ _ _

theorem padAndClampChecked_ok (bbox : BBox) (padding : ℤ) (imageWidth imageHeight : ℕ)
    (cropX cropY cropX2 cropY2 : ℕ)
    (h : padAndClampChecked bbox padding imageWidth imageHeight =
      Except.ok (cropX, cropY, cropX2, cropY2)) :
    cropX = (paddedMinX bbox padding imageWidth).toNat ∧
    cropY = (paddedMinY bbox padding imageHeight).toNat ∧
    cropX2 = (paddedMaxX bbox padding imageWidth).toNat ∧
    cropY2 = (paddedMaxY bbox padding imageHeight).toNat ∧
    cropX < cropX2 ∧ cropY < cropY2 := by
  simp only [padAndClampChecked] at h
  split at h
  · simp only [Except.ok.injEq, Prod.mk.injEq] at h
    obtain ⟨h1, h2, h3, h4⟩ := h
    subst h1; subst h2; subst h3; subst h4
    refine ⟨rfl, rfl, rfl, rfl, ?_, ?_⟩ <;> omega
  · exact absurd h (by simp)

theorem mem_insertByConf {x b : Bbox} {l : List Bbox} :
    x ∈ insertByConf b l → x = b ∨ x ∈ l := by
  induction l with
  | nil => simp [insertByConf]
  | cons c cs ih =>
    unfold insertByConf
    split
    · intro hx
      rcases List.mem_cons.mp hx with h | h
      · exact Or.inl h
      · exact Or.inr h
    · intro hx
      rcases List.mem_cons.mp hx with h | h
      · exact Or.inr (h ▸ List.mem_cons_self c cs)
      · rcases ih h with h2 | h2
        · exact Or.inl h2
        · exact Or.inr (List.mem_cons_of_mem c h2)

theorem mem_sortByConfDesc {x : Bbox} {l : List Bbox} :
    x ∈ sortByConfDesc l → x ∈ l := by
  induction l with
  | nil => simp [sortByConfDesc]
  | cons b bs ih =>
    intro hx
    rcases mem_insertByConf hx with h | h
    · exact h ▸ List.mem_cons_self b bs
    · exact List.mem_cons_of_mem b (ih h)

theorem mem_nmsGo {t : ℚ} {x : Bbox} {kept rest : List Bbox} :
    x ∈ nmsGo t kept rest → x ∈ kept ∨ x ∈ rest := by
  induction rest generalizing kept with
  | nil => exact fun h => Or.inl h
  | cons b bs ih =>
    unfold nmsGo
    split
    · intro hx
      rcases ih hx with h | h
      · exact Or.inl h
      · exact Or.inr (List.mem_cons_of_mem b h)
    · intro hx
      rcases ih hx with h | h
      · rcases List.mem_append.mp h with h2 | h2
        · exact Or.inl h2
        · exact Or.inr (List.mem_singleton.mp h2 ▸ List.mem_cons_self b bs)
      · exact Or.inr (List.mem_cons_of_mem b h)

theorem mem_nonMaximumSuppression {t : ℚ} {x : Bbox} {l : List Bbox} :
    x ∈ nonMaximumSuppression t l → x ∈ l := by
  intro hx
  rcases mem_nmsGo hx with h | h
  · exact absurd h (List.not_mem_nil x)
  · exact mem_sortByConfDesc h

set_option maxHeartbeats 1600000 in
/-- Inversion principle for a successful pipeline run: the stages that were
passed and the exact shape of the returned region. -/
theorem runInpaintingPipeline_ok_inv
    (infer : RgbaImage → GrayImage → ℕ → Except String RgbaImage)
    (resampleRgba : RgbaImage → ℕ → ℕ → RgbaImage)
    (fullImage : RgbaImage) (fullMask : GrayImage) (bbox : BBox) (cfg : InpaintConfig)
    (r : InpaintedRegion)
    (h : runInpaintingPipeline infer resampleRgba fullImage fullMask bbox cfg =
      Except.ok r) :
    ∃ cropX cropY cropX2 cropY2 croppedMask inpaintedCrop,
      padAndClampChecked bbox cfg.padding fullImage.w fullImage.h =
        Except.ok (cropX, cropY, cropX2, cropY2) ∧
      extractAndResizeMask fullMask
        { xmin := (cropX : ℚ), ymin := (cropY : ℚ),
          xmax := (cropX2 : ℚ), ymax := (cropY2 : ℚ) }
        fullImage.w fullImage.h (cropX2 - cropX) (cropY2 - cropY) cfg =
        Except.ok croppedMask ∧
      infer (cropImage fullImage cropX cropY (cropX2 - cropX) (cropY2 - cropY))
        croppedMask cfg.targetSize = Except.ok inpaintedCrop ∧
      r = { image := reconcileOutput resampleRgba inpaintedCrop (cropX2 - cropX) (cropY2 - cropY),
            x := cropX, y := cropY,
            width := cropX2 - cropX, height := cropY2 - cropY,
            mask := croppedMask.data,
            maskWidth := cropX2 - cropX, maskHeight := cropY2 - cropY,
            paddedBbox := { xmin := (cropX : ℚ), ymin := (cropY : ℚ), xmax := (cropX2 : ℚ), ymax := (cropY2 : ℚ) } } := by
  simp only [runInpaintingPipeline] at h
  split at h
  · exact absurd h (by simp)
  · rename_i cropX cropY cropX2 cropY2 hpad
    split at h
    · exact absurd h (by simp)
    · rename_i croppedMask hmask
      split at h
      · exact absurd h (by simp)
      · rename_i inpaintedCrop hinfer
        rw [Except.ok.injEq] at h
        exact ⟨cropX, cropY, cropX2, cropY2, croppedMask, inpaintedCrop,
          hpad, hmask, hinfer, h.symm⟩

/-- C1: the reconciler always yields a buffer of length
`width * height * 4`, for every resampler and every raw collaborator output
(totality: `reconcileOutput` cannot fail), and consequently every successful
pipeline call returns an image buffer of exactly `width * height * 4` bytes. -/
theorem inpaint_output_reconciler_length :
    (∀ (resampleRgba : RgbaImage → ℕ → ℕ → RgbaImage) (inpaintedCrop : RgbaImage)
      (cropWidth cropHeight : ℕ),
      (reconcileOutput resampleRgba inpaintedCrop cropWidth cropHeight).length =
        cropWidth * cropHeight * 4) ∧
    (∀ (infer : RgbaImage → GrayImage → ℕ → Except String RgbaImage)
      (resampleRgba : RgbaImage → ℕ → ℕ → RgbaImage)
      (fullImage : RgbaImage) (fullMask : GrayImage) (bbox : BBox)
      (cfg : InpaintConfig) (r : InpaintedRegion),
      runInpaintingPipeline infer resampleRgba fullImage fullMask bbox cfg =
        Except.ok r →
      r.image.length = r.width * r.height * 4) := by
  refine ⟨reconcileOutput_length, ?_⟩
  intro infer resampleRgba fullImage fullMask bbox cfg r h
  obtain ⟨cropX, cropY, cropX2, cropY2, croppedMask, inpaintedCrop, _, _, _, hr⟩ :=
    runInpaintingPipeline_ok_inv infer resampleRgba fullImage fullMask bbox cfg r h
  subst hr
  exact reconcileOutput_length resampleRgba inpaintedCrop _ _

theorem inpaint_output_reconciler_length_witness :
    pipelineRunLengthOk (runInpaintingPipeline wInfer wResample wImage wMask wBbox wCfg) := by
  cases hrun : runInpaintingPipeline wInfer wResample wImage wMask wBbox wCfg with
  | ok r =>
    show r.image.length = r.width * r.height * 4
    exact inpaint_output_reconciler_length.2 wInfer wResample wImage wMask wBbox wCfg r hrun
  | error e =>
    have hok : (runInpaintingPipeline wInfer wResample wImage wMask wBbox wCfg).isOk = true := by
      with_unfolding_all decide
    rw [hrun] at hok
    exact absurd hok (by simp [Except.isOk, Except.toBool])

/-- C10: every successfully returned `InpaintedRegion` is internally
consistent: `x`/`y` equal the padded bbox minimum corner, `width`/`height`
equal the padded bbox extents, the mask dimensions equal the crop dimensions,
and the mask byte buffer has exactly `width * height` entries. -/
theorem inpainted_region_internally_consistent
    (infer : RgbaImage → GrayImage → ℕ → Except String RgbaImage)
    (resampleRgba : RgbaImage → ℕ → ℕ → RgbaImage)
    (fullImage : RgbaImage) (fullMask : GrayImage) (bbox : BBox) (cfg : InpaintConfig)
    (r : InpaintedRegion)
    (h : runInpaintingPipeline infer resampleRgba fullImage fullMask bbox cfg =
      Except.ok r) :
    (r.x : ℚ) = r.paddedBbox.xmin ∧ (r.y : ℚ) = r.paddedBbox.ymin ∧
    (r.width : ℚ) = r.paddedBbox.xmax - r.paddedBbox.xmin ∧
    (r.height : ℚ) = r.paddedBbox.ymax - r.paddedBbox.ymin ∧
    r.maskWidth = r.width ∧ r.maskHeight = r.height ∧
    r.mask.length = r.width * r.height := by
  obtain ⟨cropX, cropY, cropX2, cropY2, croppedMask, inpaintedCrop, hpad, hmask, _, hr⟩ :=
    runInpaintingPipeline_ok_inv infer resampleRgba fullImage fullMask bbox cfg r h
  obtain ⟨-, -, -, -, hx, hy⟩ :=
    padAndClampChecked_ok bbox cfg.padding fullImage.w fullImage.h
      cropX cropY cropX2 cropY2 hpad
  have hlen := extractAndResizeMask_ok_length fullMask
    { xmin := (cropX : ℚ), ymin := (cropY : ℚ), xmax := (cropX2 : ℚ), ymax := (cropY2 : ℚ) }
    fullImage.w fullImage.h (cropX2 - cropX) (cropY2 - cropY) cfg croppedMask hmask
  subst hr
  refine ⟨rfl, rfl, ?_, ?_, rfl, rfl, ?_⟩
  · push_cast [Nat.cast_sub (le_of_lt hx)]
    ring
  · push_cast [Nat.cast_sub (le_of_lt hy)]
    ring
  · rw [hlen]
    exact Nat.mul_comm _ _

theorem inpainted_region_internally_consistent_witness :
    pipelineRunConsistent (runInpaintingPipeline wInfer wResample wImage wMask wBbox wCfg) := by
  cases hrun : runInpaintingPipeline wInfer wResample wImage wMask wBbox wCfg with
  | ok r =>
    show (r.x : ℚ) = r.paddedBbox.xmin ∧ (r.y : ℚ) = r.paddedBbox.ymin ∧
      (r.width : ℚ) = r.paddedBbox.xmax - r.paddedBbox.xmin ∧
      (r.height : ℚ) = r.paddedBbox.ymax - r.paddedBbox.ymin ∧
      r.maskWidth = r.width ∧ r.maskHeight = r.height ∧
      r.mask.length = r.width * r.height
    exact inpainted_region_internally_consistent wInfer wResample wImage wMask wBbox wCfg r hrun
  | error e =>
    have hok : (runInpaintingPipeline wInfer wResample wImage wMask wBbox wCfg).isOk = true := by
      with_unfolding_all decide
    rw [hrun] at hok
    exact absurd hok (by simp [Except.isOk, Except.toBool])

/-- One padded axis: the clamped floor of `lo - p` sits at or below any point
of `[lo, hi] ∩ [0, D]`, and the clamped ceiling of `hi + p` at or above it. -/
theorem padded_axis_superset (lo hi v : ℚ) (p : ℤ) (D : ℕ) (hp : 0 < p)
    (h1 : lo ≤ v) (h2 : v ≤ hi) (h3 : 0 ≤ v) (h4 : v ≤ (D : ℚ)) :
    ((min (max (qfloor (lo - (p : ℚ))) 0) ((D - 1 : ℕ) : ℤ)).toNat : ℚ) ≤ v ∧
    v ≤ ((min (max (qceil (hi + (p : ℚ))) 0) ((D : ℕ) : ℤ)).toNat : ℚ) := by
  have hp0 : (0 : ℚ) ≤ (p : ℚ) := by exact_mod_cast hp.le
  constructor
  · have hz0 : (0 : ℤ) ≤ min (max (qfloor (lo - (p : ℚ))) 0) ((D - 1 : ℕ) : ℤ) :=
      le_min (le_max_right _ _) (Int.natCast_nonneg _)
    have hcast : ((min (max (qfloor (lo - (p : ℚ))) 0) ((D - 1 : ℕ) : ℤ)).toNat : ℚ) =
        ((min (max (qfloor (lo - (p : ℚ))) 0) ((D - 1 : ℕ) : ℤ) : ℤ) : ℚ) := by
      exact_mod_cast congrArg (fun z : ℤ => (z : ℚ)) (Int.toNat_of_nonneg hz0)
    rw [hcast, qfloor_eq]
    have hfl : ((⌊lo - (p : ℚ)⌋ : ℤ) : ℚ) ≤ lo - (p : ℚ) := Int.floor_le _
    push_cast
    refine le_trans (min_le_left _ _) (max_le ?_ h3)
    linarith
  · have hz0 : (0 : ℤ) ≤ min (max (qceil (hi + (p : ℚ))) 0) ((D : ℕ) : ℤ) :=
      le_min (le_max_right _ _) (Int.natCast_nonneg _)
    have hcast : ((min (max (qceil (hi + (p : ℚ))) 0) ((D : ℕ) : ℤ)).toNat : ℚ) =
        ((min (max (qceil (hi + (p : ℚ))) 0) ((D : ℕ) : ℤ) : ℤ) : ℚ) := by
      exact_mod_cast congrArg (fun z : ℤ => (z : ℚ)) (Int.toNat_of_nonneg hz0)
    rw [hcast, qceil_eq]
    have hcl : hi + (p : ℚ) ≤ ((⌈hi + (p : ℚ)⌉ : ℤ) : ℚ) := Int.le_ceil _
    push_cast
    refine le_min (le_trans ?_ (le_max_left _ _)) h4
    linarith

/-- C2: the padded-and-clamped rectangle contains the input rectangle
intersected with the image bounds (padding never shrinks it), and the pipeline
raises the invalid-rectangle error exactly when, after clamping,
`xmax <= xmin` or `ymax <= ymin`. -/
theorem pad_and_clamp_superset_and_reject (bbox : BBox) (p : ℤ) (W H : ℕ)
    (hp : 0 < p) :
    (∀ x y : ℚ,
      bbox.xmin ≤ x → x ≤ bbox.xmax → 0 ≤ x → x ≤ (W : ℚ) →
      bbox.ymin ≤ y → y ≤ bbox.ymax → 0 ≤ y → y ≤ (H : ℚ) →
      ((paddedMinX bbox p W).toNat : ℚ) ≤ x ∧ x ≤ ((paddedMaxX bbox p W).toNat : ℚ) ∧
      ((paddedMinY bbox p H).toNat : ℚ) ≤ y ∧ y ≤ ((paddedMaxY bbox p H).toNat : ℚ)) ∧
    ((∃ e, padAndClampChecked bbox p W H = Except.error e) ↔
      ((paddedMaxX bbox p W).toNat ≤ (paddedMinX bbox p W).toNat ∨
       (paddedMaxY bbox p H).toNat ≤ (paddedMinY bbox p H).toNat)) ∧
    (∀ (infer : RgbaImage → GrayImage → ℕ → Except String RgbaImage)
      (resampleRgba : RgbaImage → ℕ → ℕ → RgbaImage)
      (fullImage : RgbaImage) (fullMask : GrayImage) (cfg : InpaintConfig) (e : String),
      cfg.padding = p → fullImage.w = W → fullImage.h = H →
      padAndClampChecked bbox p W H = Except.error e →
      runInpaintingPipeline infer resampleRgba fullImage fullMask bbox cfg =
        Except.error e) := by
  refine ⟨?_, ⟨?_, ?_⟩, ?_⟩
  · intro x y h1 h2 h3 h4 h5 h6 h7 h8
    obtain ⟨ha, hb⟩ := padded_axis_superset bbox.xmin bbox.xmax x p W hp h1 h2 h3 h4
    obtain ⟨hc, hd⟩ := padded_axis_superset bbox.ymin bbox.ymax y p H hp h5 h6 h7 h8
    exact ⟨ha, hb, hc, hd⟩
  · rintro ⟨e, he⟩
    simp only [padAndClampChecked] at he
    split at he
    · exact absurd he (by simp)
    · omega
  · intro hdisj
    simp only [padAndClampChecked]
    rw [if_neg (by omega)]
    exact ⟨_, rfl⟩
  · intro infer resampleRgba fullImage fullMask cfg e hp1 hw1 hh1 herr
    simp only [runInpaintingPipeline, hp1, hw1, hh1, herr]

theorem pad_and_clamp_superset_witness :
    ((paddedMinX { xmin := 100, ymin := 100, xmax := 200, ymax := 150 } 50 1000).toNat : ℚ) ≤ 120 ∧
    (120 : ℚ) ≤ ((paddedMaxX { xmin := 100, ymin := 100, xmax := 200, ymax := 150 } 50 1000).toNat : ℚ) ∧
    ((paddedMinY { xmin := 100, ymin := 100, xmax := 200, ymax := 150 } 50 800).toNat : ℚ) ≤ 110 ∧
    (110 : ℚ) ≤ ((paddedMaxY { xmin := 100, ymin := 100, xmax := 200, ymax := 150 } 50 800).toNat : ℚ) :=
  (pad_and_clamp_superset_and_reject
      { xmin := 100, ymin := 100, xmax := 200, ymax := 150 } 50 1000 800 (by decide)).1
    120 110 (by norm_num) (by norm_num) (by norm_num) (by norm_num)
    (by norm_num) (by norm_num) (by norm_num) (by norm_num)

/-- C3: mapping a source-space rectangle into mask space with the floor/ceil
asymmetry of `extract_and_resize_mask` and then mapping back by the inverse
scale yields a superset of the original rectangle. -/
theorem to_mask_space_roundtrip_superset
    (xmin xmax ymin ymax : ℚ) (srcW srcH maskW maskH : ℕ)
    (hx0 : 0 ≤ xmin) (hx1 : xmin < xmax) (hx2 : xmax ≤ (srcW : ℚ))
    (hy0 : 0 ≤ ymin) (hy1 : ymin < ymax) (hy2 : ymax ≤ (srcH : ℚ))
    (hsW : 0 < srcW) (hsH : 0 < srcH) (hmW : 0 < maskW) (hmH : 0 < maskH) :
    ((maskMin xmin ((maskW : ℚ) / (srcW : ℚ)) : ℕ) : ℚ) / ((maskW : ℚ) / (srcW : ℚ)) ≤ xmin ∧
    xmax ≤ ((maskMax xmax ((maskW : ℚ) / (srcW : ℚ)) maskW : ℕ) : ℚ) / ((maskW : ℚ) / (srcW : ℚ)) ∧
    ((maskMin ymin ((maskH : ℚ) / (srcH : ℚ)) : ℕ) : ℚ) / ((maskH : ℚ) / (srcH : ℚ)) ≤ ymin ∧
    ymax ≤ ((maskMax ymax ((maskH : ℚ) / (srcH : ℚ)) maskH : ℕ) : ℚ) / ((maskH : ℚ) / (srcH : ℚ)) := by
  have key : ∀ (lo hi : ℚ) (src msk : ℕ), 0 ≤ lo → lo < hi → hi ≤ (src : ℚ) →
      0 < src → 0 < msk →
      ((maskMin lo ((msk : ℚ) / (src : ℚ)) : ℕ) : ℚ) / ((msk : ℚ) / (src : ℚ)) ≤ lo ∧
      hi ≤ ((maskMax hi ((msk : ℚ) / (src : ℚ)) msk : ℕ) : ℚ) / ((msk : ℚ) / (src : ℚ)) := by
    intro lo hi src msk h0 h1 h2 h3 h4
    have hsrc : (0 : ℚ) < (src : ℚ) := by exact_mod_cast h3
    have hmsk : (0 : ℚ) < (msk : ℚ) := by exact_mod_cast h4
    have hscale : (0 : ℚ) < (msk : ℚ) / (src : ℚ) := div_pos hmsk hsrc
    constructor
    · rw [div_le_iff₀ hscale]
      have hfl0 : (0 : ℤ) ≤ ⌊lo * ((msk : ℚ) / (src : ℚ))⌋ :=
        Int.floor_nonneg.mpr (mul_nonneg h0 hscale.le)
      have : maskMin lo ((msk : ℚ) / (src : ℚ)) = ⌊lo * ((msk : ℚ) / (src : ℚ))⌋.toNat := by
        rw [maskMin, qfloor_eq, max_eq_left hfl0]
      rw [this]
      have hcast : ((⌊lo * ((msk : ℚ) / (src : ℚ))⌋.toNat : ℕ) : ℚ) =
          ((⌊lo * ((msk : ℚ) / (src : ℚ))⌋ : ℤ) : ℚ) := by
        exact_mod_cast congrArg (fun z : ℤ => (z : ℚ)) (Int.toNat_of_nonneg hfl0)
      rw [hcast]
      exact Int.floor_le _
    · rw [le_div_iff₀ hscale]
      have hcl0 : (0 : ℤ) ≤ min ⌈hi * ((msk : ℚ) / (src : ℚ))⌉ (msk : ℤ) :=
        le_min (Int.ceil_nonneg (mul_nonneg (le_of_lt (lt_of_le_of_lt h0 h1)) hscale.le))
          (Int.natCast_nonneg _)
      have hrw : maskMax hi ((msk : ℚ) / (src : ℚ)) msk =
          (min ⌈hi * ((msk : ℚ) / (src : ℚ))⌉ (msk : ℤ)).toNat := by
        rw [maskMax, qceil_eq]
      rw [hrw]
      have hcast : (((min ⌈hi * ((msk : ℚ) / (src : ℚ))⌉ (msk : ℤ)).toNat : ℕ) : ℚ) =
          ((min ⌈hi * ((msk : ℚ) / (src : ℚ))⌉ (msk : ℤ) : ℤ) : ℚ) := by
        exact_mod_cast congrArg (fun z : ℤ => (z : ℚ)) (Int.toNat_of_nonneg hcl0)
      rw [hcast]
      push_cast
      refine le_min (Int.le_ceil _) ?_
      calc hi * ((msk : ℚ) / (src : ℚ)) ≤ (src : ℚ) * ((msk : ℚ) / (src : ℚ)) :=
            mul_le_mul_of_nonneg_right h2 hscale.le
        _ = (msk : ℚ) := by field_simp
  obtain ⟨ha, hb⟩ := key xmin xmax srcW maskW hx0 hx1 hx2 hsW hmW
  obtain ⟨hc, hd⟩ := key ymin ymax srcH maskH hy0 hy1 hy2 hsH hmH
  exact ⟨ha, hb, hc, hd⟩

theorem to_mask_space_roundtrip_witness :
    ((maskMin 50 ((1024 : ℚ) / 1000) : ℕ) : ℚ) / ((1024 : ℚ) / 1000) ≤ 50 ∧
    (250 : ℚ) ≤ ((maskMax 250 ((1024 : ℚ) / 1000) 1024 : ℕ) : ℚ) / ((1024 : ℚ) / 1000) ∧
    ((maskMin 50 ((1024 : ℚ) / 800) : ℕ) : ℚ) / ((1024 : ℚ) / 800) ≤ 50 ∧
    (200 : ℚ) ≤ ((maskMax 200 ((1024 : ℚ) / 800) 1024 : ℕ) : ℚ) / ((1024 : ℚ) / 800) :=
  to_mask_space_roundtrip_superset 50 250 50 200 1000 800 1024 1024
    (by norm_num) (by norm_num) (by norm_num) (by norm_num) (by norm_num) (by norm_num)
    (by decide) (by decide) (by decide) (by decide)

/-- C8: the concrete scenario of spec section 8: a 1000x800 source image,
bbox `[100,100,200,150]` and padding 50 give the padded bbox
`[50,50,250,200]` and a 200x150 crop; with a 1024x1024 mask the scales are
`1.024` and `1.28` and the mask-space minimum corner is `(51, 64)`. -/
theorem inpaint_concrete_scenario :
    padAndClampChecked { xmin := 100, ymin := 100, xmax := 200, ymax := 150 } 50 1000 800 =
      Except.ok (50, 50, 250, 200) ∧
    (∀ img : RgbaImage,
      (cropImage img 50 50 (250 - 50) (200 - 50)).w = 200 ∧
      (cropImage img 50 50 (250 - 50) (200 - 50)).h = 150) ∧
    (1024 : ℚ) / 1000 = 1.024 ∧
    (1024 : ℚ) / 800 = 1.28 ∧
    maskMin 50 ((1024 : ℚ) / 1000) = 51 ∧
    maskMin 50 ((1024 : ℚ) / 800) = 64 := by
  refine ⟨by with_unfolding_all decide, fun img => ⟨rfl, rfl⟩, by norm_num, by norm_num,
    by with_unfolding_all decide, by with_unfolding_all decide⟩

/-- C6: whenever the padded rectangle's mask-space crop has zero width or zero
height, the pipeline returns the reported invalid-mask-crop error for that
region, and it does so for every inpainting collaborator — the result does not
depend on `infer` or on the resampler, so no inference call can have been
consumed. -/
theorem degenerate_mask_crop_rejected_before_inference
    (fullImage : RgbaImage) (fullMask : GrayImage) (bbox : BBox) (cfg : InpaintConfig)
    (cropX cropY cropX2 cropY2 : ℕ)
    (hpad : padAndClampChecked bbox cfg.padding fullImage.w fullImage.h =
      Except.ok (cropX, cropY, cropX2, cropY2))
    (hdeg : maskCropWidth fullMask (natBBox cropX cropY cropX2 cropY2) fullImage.w = 0 ∨
      maskCropHeight fullMask (natBBox cropX cropY cropX2 cropY2) fullImage.h = 0) :
    ∀ (infer : RgbaImage → GrayImage → ℕ → Except String RgbaImage)
      (resampleRgba : RgbaImage → ℕ → ℕ → RgbaImage),
      runInpaintingPipeline infer resampleRgba fullImage fullMask bbox cfg =
        Except.error ("Invalid mask crop dimensions: "
          ++ toString (maskCropWidth fullMask (natBBox cropX cropY cropX2 cropY2) fullImage.w)
          ++ "x"
          ++ toString (maskCropHeight fullMask (natBBox cropX cropY cropX2 cropY2) fullImage.h)) := by
  intro infer resampleRgba
  have hext : extractAndResizeMask fullMask (natBBox cropX cropY cropX2 cropY2)
      fullImage.w fullImage.h (cropX2 - cropX) (cropY2 - cropY) cfg =
      Except.error ("Invalid mask crop dimensions: "
        ++ toString (maskCropWidth fullMask (natBBox cropX cropY cropX2 cropY2) fullImage.w)
        ++ "x"
        ++ toString (maskCropHeight fullMask (natBBox cropX cropY cropX2 cropY2) fullImage.h)) := by
    simp only [extractAndResizeMask]
    rw [if_pos hdeg]
  simp only [natBBox] at hext
  simp only [runInpaintingPipeline, hpad]
  rw [hext]
  simp only [natBBox]

theorem degenerate_mask_crop_rejected_witness :
    runInpaintingPipeline wInfer wResample wDegImage wDegMask wDegBbox wCfg =
      Except.error ("Invalid mask crop dimensions: "
        ++ toString (maskCropWidth wDegMask (natBBox 0 0 3 3) wDegImage.w)
        ++ "x"
        ++ toString (maskCropHeight wDegMask (natBBox 0 0 3 3) wDegImage.h)) :=
  degenerate_mask_crop_rejected_before_inference wDegImage wDegMask wDegBbox wCfg 0 0 3 3
    (by with_unfolding_all decide) (by with_unfolding_all decide) wInfer wResample

/-- C9: a region call against an unprimed cache fails with the actionable
cache-miss error without consulting the collaborator (the result is the same
for every `infer`), a successful `cache_inpainting_data` stores the decoded
pair regardless of — that is, replacing — any prior entry, and after
`clear_inpainting_cache` both slots are empty so a subsequent region call
fails with the cache-miss error again. -/
theorem inpaint_cache_contract :
    (∀ (infer : RgbaImage → GrayImage → ℕ → Except String RgbaImage)
      (resampleRgba : RgbaImage → ℕ → ℕ → RgbaImage) (cache : InpaintCache)
      (bbox : BBox) (padding : Option ℤ) (debugMode : Option Bool)
      (config : Option InpaintConfig),
      cache.image = none →
      inpaintRegionCached infer resampleRgba cache bbox padding debugMode config =
        Except.error ("No cached image. Call cache_inpainting_data first.")) ∧
    (∀ (infer : RgbaImage → GrayImage → ℕ → Except String RgbaImage)
      (resampleRgba : RgbaImage → ℕ → ℕ → RgbaImage) (cache : InpaintCache)
      (bbox : BBox) (padding : Option ℤ) (debugMode : Option Bool)
      (config : Option InpaintConfig) (img : RgbaImage),
      cache.image = some img → cache.mask = none →
      inpaintRegionCached infer resampleRgba cache bbox padding debugMode config =
        Except.error ("No cached mask. Call cache_inpainting_data first.")) ∧
    (∀ (decodeImage : List ℕ → Except String RgbaImage)
      (decodeMask : List ℕ → Except String GrayImage)
      (cache cache2 : InpaintCache) (imagePng maskPng : List ℕ)
      (img : RgbaImage) (msk : GrayImage),
      decodeImage imagePng = Except.ok img → decodeMask maskPng = Except.ok msk →
      cacheInpaintingData decodeImage decodeMask cache imagePng maskPng =
        Except.ok { image := some img, mask := some msk } ∧
      cacheInpaintingData decodeImage decodeMask cache imagePng maskPng =
        cacheInpaintingData decodeImage decodeMask cache2 imagePng maskPng) ∧
    (∀ cache : InpaintCache,
      clearInpaintingCache cache = { image := none, mask := none }) ∧
    (∀ (infer : RgbaImage → GrayImage → ℕ → Except String RgbaImage)
      (resampleRgba : RgbaImage → ℕ → ℕ → RgbaImage) (cache : InpaintCache)
      (bbox : BBox) (padding : Option ℤ) (debugMode : Option Bool)
      (config : Option InpaintConfig),
      inpaintRegionCached infer resampleRgba (clearInpaintingCache cache) bbox
          padding debugMode config =
        Except.error ("No cached image. Call cache_inpainting_data first.")) := by
  refine ⟨?_, ?_, ?_, fun _ => rfl, ?_⟩
  · intro infer resampleRgba cache bbox padding debugMode config himg
    simp only [inpaintRegionCached, himg]
  · intro infer resampleRgba cache bbox padding debugMode config img himg hmsk
    simp only [inpaintRegionCached, himg, hmsk]
  · intro decodeImage decodeMask cache cache2 imagePng maskPng img msk hdi hdm
    constructor
    · simp only [cacheInpaintingData, hdi, hdm]
    · simp only [cacheInpaintingData, hdi, hdm]
  · intro infer resampleRgba cache bbox padding debugMode config
    simp only [inpaintRegionCached, clearInpaintingCache]

theorem inpaint_cache_contract_witness :
    inpaintRegionCached wInfer wResample { image := none, mask := none } wBbox
        none none none =
      Except.error ("No cached image. Call cache_inpainting_data first.") :=
  inpaint_cache_contract.1 wInfer wResample { image := none, mask := none } wBbox
    none none none rfl

/-- Characterization of the decode loop on a `[1, N, 7]` tensor, shared by the
decoder claims. -/
theorem decodeBlk_blk (n : ℕ) (data : List ℚ) (wRatio hRatio t : ℚ) :
    decodeBlk [1, n, 7] data wRatio hRatio t =
      some (((List.range n).filter fun i => blkKeep data t i && !blkIsClass1 data i).map
          (blkBox data wRatio hRatio),
        ((List.range n).filter fun i => blkKeep data t i && blkIsClass1 data i).map
          (blkBox data wRatio hRatio)) := by
  have h := decodeGo_blk n data wRatio hRatio t (List.range n)
    (fun i hi => List.mem_range.mp hi) ([], [])
  simpa [decodeBlk] using h

/-- C4: on a `[1, N, 7]` detector output tensor the box decoder discards
exactly the rows whose column-4 confidence is below the threshold, assigns
class 1 exactly when the column-6 score exceeds the column-5 score (class 0
otherwise), and rescales each kept row by the precomputed ratios into the
corner rectangle `[cx - w/2, cy - h/2, cx + w/2, cy + h/2]`. -/
theorem decode_blk_filter_classify_rescale (n : ℕ) (data : List ℚ)
    (wRatio hRatio t : ℚ) (_hlen : data.length = n * 7) :
    decodeBlk [1, n, 7] data wRatio hRatio t =
      some (((List.range n).filter fun i => blkKeep data t i && !blkIsClass1 data i).map
          (blkBox data wRatio hRatio),
        ((List.range n).filter fun i => blkKeep data t i && blkIsClass1 data i).map
          (blkBox data wRatio hRatio)) :=
  decodeBlk_blk n data wRatio hRatio t

theorem decode_blk_filter_classify_rescale_witness :
    decodeBlk [1, 2, 7] wBlkData 2 1 (1 / 2) =
      some (((List.range 2).filter fun i =>
          blkKeep wBlkData (1 / 2) i && !blkIsClass1 wBlkData i).map (blkBox wBlkData 2 1),
        ((List.range 2).filter fun i =>
          blkKeep wBlkData (1 / 2) i && blkIsClass1 wBlkData i).map (blkBox wBlkData 2 1)) :=
  decode_blk_filter_classify_rescale 2 wBlkData 2 1 (1 / 2) (by decide)

theorem tget_not_rank3 (dims : List ℕ) (h : dims.length ≠ 3) (data : List ℚ)
    (i j k : ℕ) : tget dims data i j k = none := by
  rcases dims with _ | ⟨a, _ | ⟨b, _ | ⟨c, _ | ⟨d, rest⟩⟩⟩⟩ <;> simp_all [tget]

/-- Refutes C7 at a concrete input: a `blk` tensor of shape `[1, 1, 6]` (six
columns instead of seven) whose single row passes the confidence gate makes
the decode loop hit an out-of-bounds access on score column 6.  The result is
the panic value, not a surfaced error: the decode loop has no error-return
path at all, so the malformed shape is never reported as an error value. -/
theorem decode_blk_malformed_shape_counterexample :
    decodeBlk [1, 1, 6] [4, 4, 2, 2, 1, 0] 1 1 (1 / 2) = none := by
  with_unfolding_all decide

/-- C7 (amended): a malformed `blk` tensor is not surfaced as an error value.
A tensor of rank below 2 panics at `blk.shape()[1]`; a tensor of rank other
than 3 with at least one candidate row panics at the first row access; a
`[1, N, k]` tensor with `k <= 4` and at least one row panics when reading the
confidence column.  (When no row is ever accessed — for example `N = 0` — the
malformation goes unnoticed and the call simply succeeds.) -/
theorem decode_blk_malformed_shape_panics (dims : List ℕ) (data : List ℚ)
    (wRatio hRatio t : ℚ) :
    (dims.length ≤ 1 → decodeBlk dims data wRatio hRatio t = none) ∧
    (∀ n, dims[1]? = some n → 0 < n → dims.length ≠ 3 →
      decodeBlk dims data wRatio hRatio t = none) ∧
    (∀ n k, dims = [1, n, k] → 0 < n → k ≤ 4 →
      decodeBlk dims data wRatio hRatio t = none) := by
  refine ⟨?_, ?_, ?_⟩
  · intro hlen
    rw [decodeBlk, List.getElem?_eq_none (by omega)]
  · intro n hsome hn hrank
    obtain ⟨m, rfl⟩ : ∃ m, n = m + 1 := ⟨n - 1, by omega⟩
    rw [decodeBlk, hsome]
    show decodeGo dims data wRatio hRatio t (List.range (m + 1)) ([], []) = none
    rw [List.range_succ_eq_map]
    simp [decodeGo, decodeStep, tget_not_rank3 dims hrank]
  · intro n k hdims hn hk
    subst hdims
    obtain ⟨m, rfl⟩ : ∃ m, n = m + 1 := ⟨n - 1, by omega⟩
    rw [decodeBlk]
    show decodeGo [1, m + 1, k] data wRatio hRatio t (List.range (m + 1)) ([], []) = none
    rw [List.range_succ_eq_map]
    have htg : tget [1, m + 1, k] data 0 0 4 = none := by
      simp only [tget]
      rw [if_neg (by omega)]
    simp [decodeGo, decodeStep, htg]

theorem decode_blk_malformed_shape_panics_witness :
    decodeBlk [1, 1, 3] [0, 0, 0] 1 1 0 = none :=
  (decode_blk_malformed_shape_panics [1, 1, 3] [0, 0, 0] 1 1 0).2.2 1 3 rfl
    (by decide) (by decide)

/-- Refutes C5 at a concrete input: a tensor row with raw width 0 and
confidence above the threshold survives both the confidence filter and NMS,
so the detector output contains a degenerate box with `xmax = xmin`. -/
theorem detector_degenerate_box_counterexample :
    ((inferenceBoxes 1024 1024 [1, 1, 7] [10, 10, 0, 5, 1, 0, 1] (1 / 2) (9 / 20)).getD
        []).any (fun b => decide (b.xmax ≤ b.xmin)) = true := by
  with_unfolding_all decide

/-- A decoded row with positive raw width and height yields a box with
positive extents when the rescale ratios are positive. -/
theorem blkBox_extent_pos (data : List ℚ) (wRatio hRatio : ℚ) (i : ℕ)
    (h2 : 0 < blkRow data i 2) (h3 : 0 < blkRow data i 3)
    (hwR : 0 < wRatio) (hhR : 0 < hRatio) :
    (blkBox data wRatio hRatio i).xmin < (blkBox data wRatio hRatio i).xmax ∧
    (blkBox data wRatio hRatio i).ymin < (blkBox data wRatio hRatio i).ymax := by
  constructor
  · simp only [blkBox]
    have := mul_pos h2 hwR
    linarith
  · simp only [blkBox]
    have := mul_pos h3 hhR
    linarith

/-- C5 (amended): every box emitted by the detection decode after confidence
filtering and NMS has `xmax > xmin` and `ymax > ymin`, provided the source
image dimensions are positive and every tensor row that passes the confidence
filter carries positive raw width and height; a surviving row with nonpositive
raw width or height produces a degenerate box that is emitted (NMS does not
remove it). -/
theorem inference_boxes_positive_extent
    (origWidth origHeight n : ℕ) (data : List ℚ) (confT nmsT : ℚ)
    (out : List ClassifiedBbox)
    (hW : 0 < origWidth) (hH : 0 < origHeight)
    (hrows : ∀ i, i < n → blkKeep data confT i = true →
      0 < blkRow data i 2 ∧ 0 < blkRow data i 3)
    (hout : inferenceBoxes origWidth origHeight [1, n, 7] data confT nmsT = some out) :
    ∀ b ∈ out, b.xmin < b.xmax ∧ b.ymin < b.ymax := by
  have hwR : (0 : ℚ) < (origWidth : ℚ) / 1024 := by positivity
  have hhR : (0 : ℚ) < (origHeight : ℚ) / 1024 := by positivity
  simp only [inferenceBoxes, decodeBlk_blk] at hout
  rw [Option.some.injEq] at hout
  subst hout
  intro b hb
  rcases List.mem_append.mp hb with hmem | hmem <;>
  · obtain ⟨bb, hbb, rfl⟩ := List.mem_map.mp hmem
    have hbb2 := mem_nonMaximumSuppression hbb
    obtain ⟨i, hi, rfl⟩ := List.mem_map.mp hbb2
    have hifilter := List.mem_filter.mp hi
    have hirange := List.mem_range.mp hifilter.1
    have hkeep : blkKeep data confT i = true := by
      have := hifilter.2
      simp only [Bool.and_eq_true] at this
      exact this.1
    obtain ⟨hpos2, hpos3⟩ := hrows i hirange hkeep
    exact blkBox_extent_pos data _ _ i hpos2 hpos3 hwR hhR

theorem inference_boxes_positive_extent_witness :
    wPosBox.xmin < wPosBox.xmax ∧ wPosBox.ymin < wPosBox.ymax :=
  inference_boxes_positive_extent 1024 1024 1 [10, 10, 2, 2, 1, 0, 1] (1 / 2) (9 / 20)
    [wPosBox] (by decide) (by decide)
    (by with_unfolding_all decide)
    (by with_unfolding_all decide)
    wPosBox (by simp)
